import Mathlib

/-!
Verification of the SmartSave sitemap/CAPTCHA crawling core.

This file gives a shallow embedding, in Lean, of the three source modules

  * scrapers/utils/sitemap_parser.py   (SitemapParser.parse_sitemap,
    SitemapParser.get_product_urls, filter_walmart_product_urls)
  * scrapers/utils/captcha_solver.py   (CaptchaSolverManager.solve_perimeterx,
    CaptchaSolverManager.get_balances, TwoCaptchaSolver.get_balance,
    CapSolver.get_balance)
  * scrapers/sites/walmart_canada.py   (WalmartCanadaScraper.scrape_product_page,
    WalmartCanadaScraper._handle_block)

and proves the specification claims about them.  External effects (HTTP
fetches, the browser, the solving services) are modelled as explicit inputs:
a sitemap "world" is a finite association list from sitemap URL to parsed
document (absent URLs model fetch failures, which the Python code catches
and skips), a solver's behaviour is a function from attempt index to the
outcome of that attempt, and one page visit is described by a
`LoadOutcome` value recording what the browser and the solver did.
Timestamps are modelled as integers (only their ordering matters to the
code under verification) and monetary amounts as rationals.
-/

namespace SmartSave

/-! ## Sitemap parser (scrapers/utils/sitemap_parser.py) -/

/-- `SitemapEntry` dataclass: one URL entry of a url-set document.
`lastmod` timestamps are modelled as integers (the code only compares
them), `priority` as a rational. -/
structure SitemapEntry where
  loc : String
  lastmod : Option Int := none
  changefreq : Option String := none
  priority : Option Rat := none
deriving DecidableEq

/-- The result of `_parse_sitemap_xml` on one fetched document: a list of
nested sitemap URLs (nonempty only for sitemap-index documents) and a list
of url entries (nonempty only for url-set documents). -/
structure SitemapDoc where
  sitemap_urls : List String
  url_entries : List SitemapEntry
deriving DecidableEq

/-- The external world seen by one traversal: a finite map from sitemap URL
to the document that fetching-plus-parsing that URL produces.  A URL absent
from the list models `_fetch_sitemap_content` raising (the `except` branch
of `parse_sitemap`, which logs and continues). -/
abbrev SitemapWorld := List (String × SitemapDoc)

/-- Observable events of one traversal: a (attempted) fetch of a sitemap
URL, or a yielded entry. -/
inductive TraceEv where
  | fetch (url : String)
  | emit (entry : SitemapEntry)
deriving DecidableEq

/-- The `lastmod` filter of `parse_sitemap`:
`if since and entry.lastmod and entry.lastmod < since: continue`.
(`None` is falsy in Python; a datetime object is always truthy.) -/
def droppedBySince (since : Option Int) (lastmod : Option Int) : Bool :=
  match since, lastmod with
  | some s, some m => decide (m < s)
  | _, _ => false

/-- The custom URL filter of `parse_sitemap`:
`if url_filter and not url_filter(entry.loc): continue`. -/
def droppedByFilter (url_filter : Option (String → Bool)) (loc : String) : Bool :=
  match url_filter with
  | some f => !f loc
  | none => false

/-- The early-stop test of `parse_sitemap`:
`if max_urls and urls_yielded >= max_urls: return`.
Both `None` and `0` are falsy in Python, so `max_urls = some 0` never
triggers the limit. -/
def hitLimit (max_urls : Option Nat) (urls_yielded : Nat) : Bool :=
  match max_urls with
  | none => false
  | some k => decide (k ≠ 0) && decide (urls_yielded ≥ k)

/-- The `for entry in entries:` body of `parse_sitemap`, processing the
entries of one fetched document.  Returns the emitted events, the updated
`urls_yielded` counter, and whether the `max_urls` early `return` fired. -/
def processEntries (since : Option Int) (url_filter : Option (String → Bool))
    (max_urls : Option Nat) :
    List SitemapEntry → Nat → List TraceEv × Nat × Bool
  | [], urls_yielded => ([], urls_yielded, false)
  | entry :: rest, urls_yielded =>
    if droppedBySince since entry.lastmod then
      processEntries since url_filter max_urls rest urls_yielded
    else if droppedByFilter url_filter entry.loc then
      processEntries since url_filter max_urls rest urls_yielded
    else
      let yielded' := urls_yielded + 1
      if hitLimit max_urls yielded' then ([TraceEv.emit entry], yielded', true)
      else
        match processEntries since url_filter max_urls rest yielded' with
        | (evs, y, stop) => (TraceEv.emit entry :: evs, y, stop)

/-- Keys of the sitemap world (the URLs whose fetch succeeds). -/
def sitemapKeys (g : SitemapWorld) : List String := g.map Prod.fst

/-- Termination measure: number of fetchable sitemap URLs not yet visited. -/
def unvisitedCount (g : SitemapWorld) (visited : List String) : Nat :=
  ((sitemapKeys g).filter (fun k => decide (k ∉ visited))).length

theorem lookup_none_not_mem_keys {g : SitemapWorld} {a : String}
    (h : g.lookup a = none) : a ∉ sitemapKeys g := by
  induction g with
  | nil => simp [sitemapKeys]
  | cons p g ih =>
    simp only [List.lookup] at h
    by_cases hpa : a = p.1
    · simp [hpa, beq_self_eq_true] at h
    · have hne : (a == p.1) = false := beq_eq_false_iff_ne.mpr hpa
      rw [hne] at h
      simp only [sitemapKeys, List.map_cons, List.mem_cons]
      push_neg
      exact ⟨hpa, ih h⟩

theorem mem_keys_of_lookup_some {g : SitemapWorld} {a : String} {d : SitemapDoc}
    (h : g.lookup a = some d) : a ∈ sitemapKeys g := by
  induction g with
  | nil => simp [List.lookup] at h
  | cons p g ih =>
    simp only [List.lookup] at h
    by_cases hpa : a = p.1
    · simp [sitemapKeys, hpa]
    · have hne : (a == p.1) = false := beq_eq_false_iff_ne.mpr hpa
      rw [hne] at h
      simp only [sitemapKeys, List.map_cons, List.mem_cons]
      exact Or.inr (ih h)

theorem length_filter_mono {α : Type} {p q : α → Bool}
    (h : ∀ a, p a = true → q a = true) :
    ∀ l : List α, (l.filter p).length ≤ (l.filter q).length := by
  intro l
  induction l with
  | nil => simp
  | cons a l ih =>
    simp only [List.filter_cons]
    cases hp : p a
    · cases hq : q a
      · simpa using ih
      · simp only [List.length_cons]
        exact Nat.le_succ_of_le ih
    · rw [h a hp]
      simpa using Nat.succ_le_succ ih

theorem filter_not_mem_cons_le (ks : List String) (current : String)
    (visited : List String) :
    (ks.filter (fun k => decide (k ∉ current :: visited))).length ≤
      (ks.filter (fun k => decide (k ∉ visited))).length := by
  apply length_filter_mono
  intro a ha
  simp only [decide_eq_true_eq] at ha ⊢
  intro hmem
  exact ha (List.mem_cons_of_mem _ hmem)

theorem unvisitedCount_cons_of_not_key {g : SitemapWorld} {current : String}
    (visited : List String) (h : current ∉ sitemapKeys g) :
    unvisitedCount g (current :: visited) = unvisitedCount g visited := by
  unfold unvisitedCount
  congr 1
  apply List.filter_congr
  intro k hk
  have hne : k ≠ current := fun he => h (he ▸ hk)
  simp [List.mem_cons, hne]

theorem filter_not_mem_cons_lt (ks : List String) (current : String)
    (visited : List String) (hkey : current ∈ ks) (hvis : current ∉ visited) :
    (ks.filter (fun k => decide (k ∉ current :: visited))).length <
      (ks.filter (fun k => decide (k ∉ visited))).length := by
  induction ks with
  | nil => simp at hkey
  | cons k ks ih =>
    rcases List.mem_cons.mp hkey with hk | hk
    · subst hk
      have h1 : decide (current ∉ current :: visited) = false := by simp
      have h2 : decide (current ∉ visited) = true := by simpa using hvis
      simp only [List.filter_cons, h1, h2, List.length_cons, cond_false, cond_true]
      exact Nat.lt_succ_of_le (filter_not_mem_cons_le ks current visited)
    · have ihk := ih hk
      simp only [List.filter_cons]
      by_cases hkcur : k = current
      · subst hkcur
        have h1 : decide (k ∉ k :: visited) = false := by simp
        have h2 : decide (k ∉ visited) = true := by simpa using hvis
        simp only [h1, h2, List.length_cons, cond_false, cond_true]
        exact Nat.lt_succ_of_le (filter_not_mem_cons_le ks k visited)
      · have h1 : decide (k ∉ current :: visited) = decide (k ∉ visited) := by
          simp [List.mem_cons, hkcur]
        rw [h1]
        cases hd : decide (k ∉ visited)
        · simpa using ihk
        · simpa using Nat.succ_lt_succ ihk

theorem unvisitedCount_cons_of_key {g : SitemapWorld} {current : String}
    {visited : List String} (hkey : current ∈ sitemapKeys g)
    (hvis : current ∉ visited) :
    unvisitedCount g (current :: visited) < unvisitedCount g visited :=
  filter_not_mem_cons_lt (sitemapKeys g) current visited hkey hvis

/-- The `while sitemap_queue:` loop of `SitemapParser.parse_sitemap`,
instrumented to record the trace of fetch attempts and yielded entries.
Mirrors the source: pop the queue head; skip it if already visited;
otherwise mark it visited and fetch it (a URL outside the world models the
fetch raising, which the code logs and skips); extend the queue with nested
sitemaps when `recursive`; then yield the document's entries through the
`since` / `url_filter` / `max_urls` logic, returning immediately when the
limit fires. -/
def parseSitemapLoop (g : SitemapWorld) (recursive : Bool) (since : Option Int)
    (url_filter : Option (String → Bool)) (max_urls : Option Nat)
    (visited : List String) (queue : List String) (urls_yielded : Nat) :
    List TraceEv :=
  match queue with
  | [] => []
  | current :: rest =>
    if current ∈ visited then
      parseSitemapLoop g recursive since url_filter max_urls visited rest urls_yielded
    else
      match hg : g.lookup current with
      | none =>
        TraceEv.fetch current ::
          parseSitemapLoop g recursive since url_filter max_urls
            (current :: visited) rest urls_yielded
      | some doc =>
        let queue' :=
          if recursive && !doc.sitemap_urls.isEmpty then rest ++ doc.sitemap_urls
          else rest
        match processEntries since url_filter max_urls doc.url_entries urls_yielded with
        | (evs, yielded', stop) =>
          if stop then TraceEv.fetch current :: evs
          else
            TraceEv.fetch current :: evs ++
              parseSitemapLoop g recursive since url_filter max_urls
                (current :: visited) queue' yielded'
termination_by (unvisitedCount g visited, queue.length)
decreasing_by
  · apply Prod.Lex.right
    simp
  · rw [unvisitedCount_cons_of_not_key visited (lookup_none_not_mem_keys hg)]
    apply Prod.Lex.right
    simp
  · apply Prod.Lex.left
    exact unvisitedCount_cons_of_key (mem_keys_of_lookup_some hg) (by assumption)

/-- `SitemapParser.parse_sitemap(url, recursive, since, url_filter, max_urls)`
as an event trace: the loop starts with an empty visited set and the queue
seeded with `url`. -/
def parse_sitemap (g : SitemapWorld) (url : String) (recursive : Bool)
    (since : Option Int) (url_filter : Option (String → Bool))
    (max_urls : Option Nat) : List TraceEv :=
  parseSitemapLoop g recursive since url_filter max_urls [] [url] 0

/-- The entries yielded by a traversal trace. -/
def emittedEntries (tr : List TraceEv) : List SitemapEntry :=
  tr.filterMap fun ev =>
    match ev with
    | TraceEv.emit e => some e
    | TraceEv.fetch _ => none

/-- The sitemap URLs fetched (or fetch-attempted) by a traversal trace. -/
def fetchedUrls (tr : List TraceEv) : List String :=
  tr.filterMap fun ev =>
    match ev with
    | TraceEv.fetch u => some u
    | TraceEv.emit _ => none

/-- Python's substring test `needle in haystack`. -/
def containsSub (haystack needle : String) : Bool :=
  decide (needle.data <:+: haystack.data)

/-- The product-URL predicate of `get_product_urls`:
`lambda url: '/ip/' in url or '/produit/' in url`. -/
def product_url_filter (url : String) : Bool :=
  containsSub url "/ip/" || containsSub url "/produit/"

/-- `SitemapParser.get_product_urls(sitemap_url, max_urls, since)`:
`parse_sitemap` with `recursive=True` and the product-URL predicate,
realized to a list. -/
def get_product_urls (g : SitemapWorld) (sitemap_url : String)
    (max_urls : Option Nat) (since : Option Int) : List SitemapEntry :=
  emittedEntries (parse_sitemap g sitemap_url true since (some product_url_filter) max_urls)

/-- The `disallowed_patterns` list of `filter_walmart_product_urls`. -/
def disallowed_patterns : List String :=
  ["/search", "/recherche", "/cart", "/panier", "/sign-in", "/account",
   "/kiosk/", "+", "?f="]

/-- `filter_walmart_product_urls(url)`: a product page must contain an
item-page marker and none of the disallowed patterns. -/
def filter_walmart_product_urls (url : String) : Bool :=
  if !containsSub url "/ip/" && !containsSub url "/produit/" then false
  else if disallowed_patterns.any (fun pat => containsSub url pat) then false
  else true

/-! ## CAPTCHA solver (scrapers/utils/captcha_solver.py) -/

/-- The `CaptchaSolution` dataclass.  `solution` (the provider's structured
payload) is abstracted to an opaque string, `cost` to a rational and
`solve_time` to a natural number of seconds; the claims only inspect
`success` and `error`. -/
structure CaptchaSolution where
  success : Bool
  token : Option String := none
  solution : Option String := none
  error : Option String := none
  task_id : Option String := none
  cost : Option Rat := none
  solve_time : Option Nat := none
deriving DecidableEq

/-- The outcome of one call to a provider's `solve_perimeterx`: either a
returned `CaptchaSolution` or a raised exception (caught by the manager's
`try`/`except`, which stores `str(e)` as the last error). -/
inductive SolveAttemptResult where
  | returns (s : CaptchaSolution)
  | throws (msg : String)
deriving DecidableEq

/-- A provider's observable behaviour: what its `solve_perimeterx` does on
each successive attempt the manager makes against it (attempt indices
restart at 0 for every provider, as `for attempt in range(self.max_retries)`
does). -/
abbrev SolverBehavior := Nat → SolveAttemptResult

/-- The state of a constructed `CaptchaSolverManager`: the configuration
fields read in `__init__` plus the `solvers` dict (provider name to provider
behaviour). -/
structure CaptchaSolverManager where
  enabled : Bool
  primary_provider : String
  fallback_provider : Option String
  max_retries : Nat
  solvers : List (String × SolverBehavior)

/-- `CaptchaSolverManager.is_available`:
`self.enabled and len(self.solvers) > 0`. -/
def is_available (m : CaptchaSolverManager) : Bool :=
  m.enabled && decide (m.solvers.length > 0)

/-- The `for attempt in range(self.max_retries)` loop of
`CaptchaSolverManager.solve_perimeterx` for one provider.  Arguments: the
provider's name (for the call log), its behaviour, the next attempt index,
the remaining attempts, and the current `last_error`.  Returns the first
successful solution (if any), the updated `last_error`, and the log of
calls made as (provider, attempt) pairs. -/
def attemptLoop (name : String) (behavior : SolverBehavior) :
    Nat → Nat → Option String →
      Option CaptchaSolution × Option String × List (String × Nat)
  | _, 0, last_error => (none, last_error, [])
  | attempt, remaining + 1, last_error =>
    match behavior attempt with
    | SolveAttemptResult.returns s =>
      if s.success then (some s, last_error, [(name, attempt)])
      else
        match attemptLoop name behavior (attempt + 1) remaining s.error with
        | (r, e, calls) => (r, e, (name, attempt) :: calls)
    | SolveAttemptResult.throws msg =>
      match attemptLoop name behavior (attempt + 1) remaining (some msg) with
      | (r, e, calls) => (r, e, (name, attempt) :: calls)

/-- The `for provider_name in providers_to_try` loop of
`CaptchaSolverManager.solve_perimeterx`: skip names with no initialized
solver (`if not solver: continue`), otherwise run the bounded retry loop,
returning at the first success and threading `last_error` through. -/
def providerLoop (solvers : List (String × SolverBehavior)) (max_retries : Nat) :
    List String → Option String →
      Option CaptchaSolution × Option String × List (String × Nat)
  | [], last_error => (none, last_error, [])
  | p :: rest, last_error =>
    match solvers.lookup p with
    | none => providerLoop solvers max_retries rest last_error
    | some behavior =>
      match attemptLoop p behavior 0 max_retries last_error with
      | (some s, e, calls) => (some s, e, calls)
      | (none, e, calls) =>
        match providerLoop solvers max_retries rest e with
        | (r, e', calls') => (r, e', calls ++ calls')

/-- How a Python f-string renders an `Optional[str]`: `None` for `None`,
the string itself otherwise. -/
def pyStrOfOption : Option String → String
  | none => "None"
  | some s => s

/-- `providers_to_try` as built by `solve_perimeterx`: the primary, then the
fallback `if self.fallback_provider and self.fallback_provider !=
self.primary_provider` (the empty string is falsy in Python). -/
def providers_to_try (m : CaptchaSolverManager) : List String :=
  m.primary_provider ::
    (match m.fallback_provider with
     | some f =>
       if decide (f ≠ "") && decide (f ≠ m.primary_provider) then [f] else []
     | none => [])

/-- `CaptchaSolverManager.solve_perimeterx`, returning the solution together
with the log of (provider, attempt) calls made to the providers. -/
def solve_perimeterx (m : CaptchaSolverManager) :
    CaptchaSolution × List (String × Nat) :=
  if !is_available m then
    ({ success := false,
       error := some "CAPTCHA solving is not configured or enabled" }, [])
  else
    match providerLoop m.solvers m.max_retries (providers_to_try m) none with
    | (some s, _, calls) => (s, calls)
    | (none, last_error, calls) =>
      ({ success := false,
         error := some ("All CAPTCHA solvers failed. Last error: " ++
           pyStrOfOption last_error) }, calls)

/-- The JSON body `2captcha`'s `res.php?action=getbalance` returns, as far
as `TwoCaptchaSolver.get_balance` reads it: the `status` field and the
numeric value of the `request` field (`none` when the field is absent or
`float()` would fail on it). -/
structure TwoCaptchaBalanceResp where
  status : Nat
  request : Option Rat
deriving DecidableEq

namespace TwoCaptchaSolver

/-- `TwoCaptchaSolver.get_balance`: a transport/JSON failure (`resp = none`)
is caught and falls through to `return 0.0`; a response with `status != 1`
also falls through to `0.0`; otherwise the parsed `request` value is
returned (`result.get("request", 0)` defaults to 0, and an unparseable
value raises into the same `except`, again giving 0.0). -/
def get_balance (resp : Option TwoCaptchaBalanceResp) : Rat :=
  match resp with
  | none => 0
  | some r => if r.status = 1 then r.request.getD 0 else 0

end TwoCaptchaSolver

/-- The JSON body CapSolver's `getBalance` returns, as far as
`CapSolver.get_balance` reads it. -/
structure CapSolverBalanceResp where
  errorId : Int
  balance : Option Rat
deriving DecidableEq

namespace CapSolver

/-- `CapSolver.get_balance`: failures are caught and give `0.0`; a response
with `errorId == 0` gives the parsed `balance` (default 0). -/
def get_balance (resp : Option CapSolverBalanceResp) : Rat :=
  match resp with
  | none => 0
  | some r => if r.errorId = 0 then r.balance.getD 0 else 0

end CapSolver

/-- `CaptchaSolverManager.get_balances`: each initialized solver is queried
in turn; the observable outcome of one `solver.get_balance()` call is
either a returned amount (`Except.ok`) or a raised exception
(`Except.error`), which the manager catches and records as `-1.0`. -/
def get_balances (solvers : List (String × Except String Rat)) :
    List (String × Rat) :=
  solvers.map fun p =>
    (p.1,
     match p.2 with
     | Except.ok v => v
     | Except.error _ => -1)

/-! ## Crawl controller (scrapers/sites/walmart_canada.py) -/

/-- The mutable per-session counters of `WalmartCanadaScraper` touched by
`scrape_product_page`: `self.consecutive_errors` and
`self.stats['errors']`. -/
structure CrawlState where
  consecutive_errors : Nat
  errors : Nat
deriving DecidableEq

/-- What the external world (browser, solver, parsers) does during one
`scrape_product_page(url)` call, parametrized by the record type `α`
produced by extraction:
  * `timeout`: `page.goto` raises `PlaywrightTimeout`;
  * `exn`: any other exception escapes the `try` block;
  * `loaded blocked solver_available captcha_ok structured fallback_to_dom dom`:
    the page loads; `_is_blocked()` returns `blocked`;
    `captcha_solver.is_available()` returns `solver_available`;
    `_handle_captcha()` (solve, inject, reload, re-check) would succeed iff
    `captcha_ok`; structured `__NEXT_DATA__` extraction yields `structured`;
    the `fallback_to_dom` config flag and the DOM extraction result `dom`. -/
inductive LoadOutcome (α : Type) where
  | timeout
  | exn
  | loaded (blocked : Bool) (solver_available : Bool) (captcha_ok : Bool)
      (structured : Option α) (fallback_to_dom : Bool) (dom : Option α)

/-- `WalmartCanadaScraper._handle_block`: try CAPTCHA solving if the solver
manager is available, otherwise (or on failure) back off and report
failure. -/
def handle_block (solver_available captcha_ok : Bool) : Bool :=
  if solver_available then
    if captcha_ok then true else false
  else false

/-- `WalmartCanadaScraper.scrape_product_page`, as a state transition on
`CrawlState` returning the produced record (if any).  Mirrors the source:
on a block that `_handle_block` cannot bypass, increment
`consecutive_errors` and `stats['errors']` and return `None` (the
`consecutive_errors >= max_consecutive_errors` test only logs before the
same `return None`); otherwise reset `consecutive_errors` to 0 and attempt
structured extraction, falling back to DOM extraction when enabled;
`PlaywrightTimeout` and other exceptions increment both counters and
return `None`. -/
def scrape_product_page {α : Type} (max_consecutive_errors : Nat)
    (outcome : LoadOutcome α) (st : CrawlState) : Option α × CrawlState :=
  match outcome with
  | LoadOutcome.timeout =>
    (none, { consecutive_errors := st.consecutive_errors + 1,
             errors := st.errors + 1 })
  | LoadOutcome.exn =>
    (none, { consecutive_errors := st.consecutive_errors + 1,
             errors := st.errors + 1 })
  | LoadOutcome.loaded blocked solver_available captcha_ok structured
      fallback_to_dom dom =>
    if blocked && !handle_block solver_available captcha_ok then
      let st' : CrawlState :=
        { consecutive_errors := st.consecutive_errors + 1,
          errors := st.errors + 1 }
      if st'.consecutive_errors ≥ max_consecutive_errors then (none, st')
      else (none, st')
    else
      let st' : CrawlState := { st with consecutive_errors := 0 }
      match structured with
      | some r => (some r, st')
      | none => if fallback_to_dom then (dom, st') else (none, st')

/-! ## Derived notions used by the claim statements -/

/-- An entry survives both the `since` filter and the custom URL filter. -/
def eligibleEntry (since : Option Int) (url_filter : Option (String → Bool))
    (e : SitemapEntry) : Bool :=
  !droppedBySince since e.lastmod && !droppedByFilter url_filter e.loc

/-- A sequence of page visits folded through `scrape_product_page`,
returning the final crawl state. -/
def runVisits {α : Type} (max_consecutive_errors : Nat) :
    List (LoadOutcome α) → CrawlState → CrawlState
  | [], st => st
  | o :: os, st =>
    runVisits max_consecutive_errors os
      (scrape_product_page max_consecutive_errors o st).2

/-- A visit outcome that the spec counts as "a failed visit or an
unresolved block": a load timeout, another exception, or a detected block
that `_handle_block` does not bypass. -/
def FailedVisit {α : Type} : LoadOutcome α → Prop
  | LoadOutcome.timeout => True
  | LoadOutcome.exn => True
  | LoadOutcome.loaded blocked solver_available captcha_ok _ _ _ =>
    blocked = true ∧ handle_block solver_available captcha_ok = false

/-- A solve attempt that does not produce a successful solution: either the
provider call raised, or it returned a solution with `success = False`. -/
def AttemptFailed : SolveAttemptResult → Prop
  | SolveAttemptResult.returns s => s.success = false
  | SolveAttemptResult.throws _ => True

/-! ## Trace helper lemmas -/

theorem emittedEntries_append (tr₁ tr₂ : List TraceEv) :
    emittedEntries (tr₁ ++ tr₂) = emittedEntries tr₁ ++ emittedEntries tr₂ :=
  List.filterMap_append _ _ _

theorem fetchedUrls_append (tr₁ tr₂ : List TraceEv) :
    fetchedUrls (tr₁ ++ tr₂) = fetchedUrls tr₁ ++ fetchedUrls tr₂ :=
  List.filterMap_append _ _ _

theorem emittedEntries_cons_fetch (u : String) (tr : List TraceEv) :
    emittedEntries (TraceEv.fetch u :: tr) = emittedEntries tr := rfl

theorem emittedEntries_cons_emit (e : SitemapEntry) (tr : List TraceEv) :
    emittedEntries (TraceEv.emit e :: tr) = e :: emittedEntries tr := rfl

theorem fetchedUrls_cons_fetch (u : String) (tr : List TraceEv) :
    fetchedUrls (TraceEv.fetch u :: tr) = u :: fetchedUrls tr := rfl

theorem fetchedUrls_cons_emit (e : SitemapEntry) (tr : List TraceEv) :
    fetchedUrls (TraceEv.emit e :: tr) = fetchedUrls tr := rfl

theorem emittedEntries_map_emit (l : List SitemapEntry) :
    emittedEntries (l.map TraceEv.emit) = l := by
  induction l with
  | nil => rfl
  | cons e rest ih =>
    simp only [List.map_cons, emittedEntries_cons_emit, ih]

theorem fetchedUrls_map_emit (l : List SitemapEntry) :
    fetchedUrls (l.map TraceEv.emit) = [] := by
  induction l with
  | nil => rfl
  | cons e rest ih =>
    simp only [List.map_cons, fetchedUrls_cons_emit, ih]

/-! ## Attempt/provider loop lemmas -/

theorem attemptLoop_all_fail (name : String) (behavior : SolverBehavior)
    (hfail : ∀ i, AttemptFailed (behavior i)) :
    ∀ (n attempt : Nat) (le : Option String),
      (attemptLoop name behavior attempt n le).1 = none ∧
      (attemptLoop name behavior attempt n le).2.2 =
        (List.range' attempt n).map (fun i => (name, i)) := by
  intro n
  induction n with
  | zero => intro attempt le; simp [attemptLoop, List.range']
  | succ n ih =>
    intro attempt le
    simp only [attemptLoop]
    cases hb : behavior attempt with
    | returns s =>
      have hs : s.success = false := by
        have := hfail attempt
        rw [hb] at this
        exact this
      rcases hrec : attemptLoop name behavior (attempt + 1) n s.error with ⟨r, e, calls⟩
      have hr := ih (attempt + 1) s.error
      rw [hrec] at hr
      simp only [hs, Bool.false_eq_true, if_false, hrec]
      simp only at hr
      simp [hr.1, hr.2, List.range']
    | throws msg =>
      rcases hrec : attemptLoop name behavior (attempt + 1) n (some msg) with ⟨r, e, calls⟩
      have hr := ih (attempt + 1) (some msg)
      rw [hrec] at hr
      simp only [hrec]
      simp only at hr
      simp [hr.1, hr.2, List.range']

theorem attemptLoop_concrete_fail (name : String) (behavior : SolverBehavior)
    (es : Nat → String)
    (hb : ∀ i, behavior i =
      SolveAttemptResult.returns { success := false, error := some (es i) }) :
    ∀ (n attempt : Nat) (le : Option String),
      attemptLoop name behavior attempt (n + 1) le =
        (none, some (es (attempt + n)),
         (List.range' attempt (n + 1)).map (fun i => (name, i))) := by
  intro n
  induction n with
  | zero =>
    intro attempt le
    simp [attemptLoop, hb attempt, List.range']
  | succ n ih =>
    intro attempt le
    conv_lhs => rw [attemptLoop]
    rw [hb attempt]
    simp only [ih (attempt + 1)]
    have h1 : attempt + 1 + n = attempt + (n + 1) := by omega
    simp [List.range', h1]

theorem attemptLoop_success_first (name : String) (behavior : SolverBehavior)
    (s : CaptchaSolution) (h0 : behavior 0 = SolveAttemptResult.returns s)
    (hs : s.success = true) :
    ∀ (n : Nat), 0 < n → ∀ le : Option String,
      attemptLoop name behavior 0 n le = (some s, le, [(name, 0)]) := by
  intro n hn le
  cases n with
  | zero => omega
  | succ n => simp [attemptLoop, h0, hs]

theorem providers_to_try_both (m : CaptchaSolverManager) (fbName : String)
    (hfb : m.fallback_provider = some fbName) (hne0 : fbName ≠ "")
    (hne : fbName ≠ m.primary_provider) :
    providers_to_try m = [m.primary_provider, fbName] := by
  simp [providers_to_try, hfb, hne0, hne]

/-! ## processEntries characterizations -/

theorem processEntries_no_fetch (since : Option Int)
    (url_filter : Option (String → Bool)) (max_urls : Option Nat) :
    ∀ (l : List SitemapEntry) (y : Nat),
      fetchedUrls (processEntries since url_filter max_urls l y).1 = [] := by
  intro l
  induction l with
  | nil => intro y; rfl
  | cons e rest ih =>
    intro y
    simp only [processEntries]
    by_cases h1 : droppedBySince since e.lastmod = true
    · simp only [h1, if_true]
      exact ih y
    · simp only [Bool.not_eq_true] at h1
      simp only [h1, Bool.false_eq_true, if_false]
      by_cases h2 : droppedByFilter url_filter e.loc = true
      · simp only [h2, if_true]
        exact ih y
      · simp only [Bool.not_eq_true] at h2
        simp only [h2, Bool.false_eq_true, if_false]
        by_cases h3 : hitLimit max_urls (y + 1) = true
        · simp only [h3, if_true]
          rfl
        · simp only [Bool.not_eq_true] at h3
          simp only [h3, Bool.false_eq_true, if_false]
          rcases hrec : processEntries since url_filter max_urls rest (y + 1)
            with ⟨evs, y2, stop⟩
          have := ih (y + 1)
          rw [hrec] at this
          simpa [fetchedUrls_cons_emit] using this

theorem processEntries_none_eq (since : Option Int)
    (url_filter : Option (String → Bool)) :
    ∀ (l : List SitemapEntry) (y : Nat),
      processEntries since url_filter none l y =
        ((l.filter (eligibleEntry since url_filter)).map TraceEv.emit,
         y + (l.filter (eligibleEntry since url_filter)).length, false) := by
  intro l
  induction l with
  | nil => intro y; simp [processEntries]
  | cons e rest ih =>
    intro y
    simp only [processEntries, List.filter_cons, eligibleEntry]
    by_cases h1 : droppedBySince since e.lastmod = true
    · simp [h1, ih y, eligibleEntry]
    · simp only [Bool.not_eq_true] at h1
      by_cases h2 : droppedByFilter url_filter e.loc = true
      · simp [h1, h2, ih y, eligibleEntry]
      · simp only [Bool.not_eq_true] at h2
        have hlim : hitLimit none (y + 1) = false := rfl
        simp only [h1, h2, Bool.false_eq_true, if_false, hlim, ih (y + 1),
          Bool.not_false, Bool.and_self, if_true, eligibleEntry, List.map_cons,
          List.length_cons, Prod.mk.injEq]
        refine ⟨by trivial, by omega, by trivial⟩

theorem processEntries_some_eq (since : Option Int)
    (url_filter : Option (String → Bool)) (k : Nat) :
    ∀ (l : List SitemapEntry) (y : Nat), y < k →
      processEntries since url_filter (some k) l y =
        (((l.filter (eligibleEntry since url_filter)).take (k - y)).map TraceEv.emit,
         y + min (k - y) (l.filter (eligibleEntry since url_filter)).length,
         decide ((l.filter (eligibleEntry since url_filter)).length ≥ k - y)) := by
  intro l
  induction l with
  | nil =>
    intro y hy
    have h1 : ¬ ((0 : Nat) ≥ k - y) := by omega
    simp [processEntries, h1]
  | cons e rest ih =>
    intro y hy
    simp only [processEntries, List.filter_cons, eligibleEntry]
    by_cases h1 : droppedBySince since e.lastmod = true
    · simp [h1, ih y hy, eligibleEntry]
    · simp only [Bool.not_eq_true] at h1
      by_cases h2 : droppedByFilter url_filter e.loc = true
      · simp [h1, h2, ih y hy, eligibleEntry]
      · simp only [Bool.not_eq_true] at h2
        have hk0 : (k ≠ 0) := by omega
        by_cases h3 : y + 1 ≥ k
        · have hlim : hitLimit (some k) (y + 1) = true := by
            simp [hitLimit, hk0, h3]
          have hky : k - y = 1 := by omega
          simp only [h1, h2, Bool.false_eq_true, if_false, hlim, if_true,
            Bool.not_false, Bool.and_self, if_true, hky, Prod.mk.injEq,
            List.take_succ_cons, List.take_zero, List.map_cons, List.map_nil,
            List.length_cons]
          refine ⟨by trivial, by omega, ?_⟩
          first
          | trivial
          | exact (decide_eq_true (by omega)).symm
          | exact decide_eq_true (by omega)
        · have hlim : hitLimit (some k) (y + 1) = false := by
            have hd : decide (y + 1 ≥ k) = false := decide_eq_false h3
            simp [hitLimit, hd]
          have hy1 : y + 1 < k := by omega
          rcases hrec : processEntries since url_filter (some k) rest (y + 1)
            with ⟨evs, y2, stop⟩
          have hihr := ih (y + 1) hy1
          rw [hrec] at hihr
          have he : evs =
              ((rest.filter (eligibleEntry since url_filter)).take (k - (y + 1))).map
                TraceEv.emit := congrArg Prod.fst hihr
          have hy2 : y2 = (y + 1) +
              min (k - (y + 1)) (rest.filter (eligibleEntry since url_filter)).length :=
            congrArg (fun p => p.2.1) hihr
          have hst : stop =
              decide ((rest.filter (eligibleEntry since url_filter)).length ≥
                k - (y + 1)) :=
            congrArg (fun p => p.2.2) hihr
          simp only [eligibleEntry] at he hy2 hst
          simp only [h1, h2, Bool.false_eq_true, if_false, hlim, hrec,
            Bool.not_false, Bool.and_self, if_true, List.length_cons,
            Prod.mk.injEq]
          have htake : k - y = (k - (y + 1)) + 1 := by omega
          refine ⟨?_, ?_, ?_⟩
          · rw [htake, List.take_succ_cons, List.map_cons, he]
          · rw [hy2]
            omega
          · rw [hst]
            exact decide_eq_decide.mpr (by omega)

/-! ## Traversal loop unfolding lemmas -/

theorem parseSitemapLoop_nil (g : SitemapWorld) (recursive : Bool)
    (since : Option Int) (url_filter : Option (String → Bool))
    (max_urls : Option Nat) (visited : List String) (y : Nat) :
    parseSitemapLoop g recursive since url_filter max_urls visited [] y = [] := by
  rw [parseSitemapLoop]

theorem parseSitemapLoop_cons_mem (g : SitemapWorld) (recursive : Bool)
    (since : Option Int) (url_filter : Option (String → Bool))
    (max_urls : Option Nat) {visited : List String} {current : String}
    (rest : List String) (y : Nat) (hmem : current ∈ visited) :
    parseSitemapLoop g recursive since url_filter max_urls visited
      (current :: rest) y =
    parseSitemapLoop g recursive since url_filter max_urls visited rest y := by
  rw [parseSitemapLoop]
  simp only [if_pos hmem]

theorem parseSitemapLoop_cons_fail (g : SitemapWorld) (recursive : Bool)
    (since : Option Int) (url_filter : Option (String → Bool))
    (max_urls : Option Nat) {visited : List String} {current : String}
    (rest : List String) (y : Nat) (hmem : current ∉ visited)
    (hlk : g.lookup current = none) :
    parseSitemapLoop g recursive since url_filter max_urls visited
      (current :: rest) y =
    TraceEv.fetch current ::
      parseSitemapLoop g recursive since url_filter max_urls
        (current :: visited) rest y := by
  rw [parseSitemapLoop]
  simp only [if_neg hmem]
  split
  · rfl
  next doc heq =>
    rw [hlk] at heq
    cases heq

theorem parseSitemapLoop_cons_found (g : SitemapWorld) (recursive : Bool)
    (since : Option Int) (url_filter : Option (String → Bool))
    (max_urls : Option Nat) {visited : List String} {current : String}
    (rest : List String) (y : Nat) {doc : SitemapDoc}
    {evs : List TraceEv} {y2 : Nat} {stop : Bool}
    (hmem : current ∉ visited) (hlk : g.lookup current = some doc)
    (hpe : processEntries since url_filter max_urls doc.url_entries y =
      (evs, y2, stop)) :
    parseSitemapLoop g recursive since url_filter max_urls visited
      (current :: rest) y =
    (if stop then TraceEv.fetch current :: evs
     else TraceEv.fetch current :: evs ++
       parseSitemapLoop g recursive since url_filter max_urls
         (current :: visited)
         (if recursive && !doc.sitemap_urls.isEmpty then
            rest ++ doc.sitemap_urls
          else rest) y2) := by
  rw [parseSitemapLoop]
  simp only [if_neg hmem]
  split
  next heq =>
    rw [hlk] at heq
    cases heq
  next doc2 heq =>
    rw [hlk] at heq
    injection heq with h2
    subst h2
    simp only [hpe]

/-- Structural induction principle following the recursion of
`parseSitemapLoop`, with the fixed parameters taken positionally. -/
theorem loopInduction (g : SitemapWorld) (recursive : Bool) (since : Option Int)
    (url_filter : Option (String → Bool)) (max_urls : Option Nat)
    (motive : List String → List String → Nat → Prop)
    (h1 : ∀ visited y, motive visited [] y)
    (h2 : ∀ visited y current rest, current ∈ visited →
      motive visited rest y → motive visited (current :: rest) y)
    (h3 : ∀ visited y current rest, current ∉ visited →
      g.lookup current = none →
      motive (current :: visited) rest y → motive visited (current :: rest) y)
    (h4 : ∀ visited y current rest, current ∉ visited →
      ∀ doc, g.lookup current = some doc →
      ∀ evs y2,
        processEntries since url_filter max_urls doc.url_entries y =
          (evs, y2, true) →
      motive visited (current :: rest) y)
    (h5 : ∀ visited y current rest, current ∉ visited →
      ∀ doc, g.lookup current = some doc →
      ∀ queue', queue' =
        (if recursive && !doc.sitemap_urls.isEmpty then
          rest ++ doc.sitemap_urls else rest) →
      ∀ evs y2 stop,
        processEntries since url_filter max_urls doc.url_entries y =
          (evs, y2, stop) →
      stop = false →
      motive (current :: visited) queue' y2 →
      motive visited (current :: rest) y) :
    ∀ visited queue y, motive visited queue y := by
  intro visited queue y
  refine parseSitemapLoop.induct g recursive since url_filter max_urls motive
    h1 h2 h3 h4 ?_ visited queue y
  intro visited2 y2 current rest hnv doc hlk q2 evs yy stop hpe hns ihm
  refine h5 visited2 y2 current rest hnv doc hlk q2 ?_ evs yy stop hpe ?_ ihm
  · exact dite_eq_ite
  · cases stop
    · rfl
    · exact absurd rfl hns

/-! ## Traversal loop lemmas -/

theorem parseSitemapLoop_fetched_nodup (g : SitemapWorld) (recursive : Bool)
    (since : Option Int) (url_filter : Option (String → Bool))
    (max_urls : Option Nat) :
    ∀ (visited queue : List String) (urls_yielded : Nat),
      (fetchedUrls (parseSitemapLoop g recursive since url_filter max_urls
        visited queue urls_yielded)).Nodup ∧
      ∀ u ∈ fetchedUrls (parseSitemapLoop g recursive since url_filter max_urls
        visited queue urls_yielded), u ∉ visited := by
  refine loopInduction g recursive since url_filter max_urls
    (fun visited queue urls_yielded =>
      (fetchedUrls (parseSitemapLoop g recursive since url_filter max_urls
        visited queue urls_yielded)).Nodup ∧
      ∀ u ∈ fetchedUrls (parseSitemapLoop g recursive since url_filter max_urls
        visited queue urls_yielded), u ∉ visited)
    ?_ ?_ ?_ ?_ ?_
  · intro visited y
    simp [parseSitemapLoop_nil, fetchedUrls]
  · intro visited y current rest hmem ih
    rw [parseSitemapLoop_cons_mem g recursive since url_filter max_urls rest y hmem]
    exact ih
  · intro visited y current rest hmem hlk ih
    rw [parseSitemapLoop_cons_fail g recursive since url_filter max_urls rest y hmem hlk]
    obtain ⟨ihn, ihv⟩ := ih
    rw [fetchedUrls_cons_fetch]
    constructor
    · rw [List.nodup_cons]
      exact ⟨fun hc => (ihv current hc) (List.mem_cons_self _ _), ihn⟩
    · intro u hu
      rcases List.mem_cons.mp hu with h | h
      · exact h ▸ hmem
      · exact fun hv => (ihv u h) (List.mem_cons_of_mem _ hv)
  · intro visited y current rest hmem doc hlk evs y2 hpe
    rw [parseSitemapLoop_cons_found g recursive since url_filter max_urls rest y
      hmem hlk hpe]
    have hevs : fetchedUrls evs = [] := by
      have h := processEntries_no_fetch since url_filter max_urls doc.url_entries y
      rw [hpe] at h
      exact h
    simp only [if_true, fetchedUrls_cons_fetch, hevs]
    constructor
    · simp
    · intro u hu
      rcases List.mem_cons.mp hu with h | h
      · exact h ▸ hmem
      · simp at h
  · intro visited y current rest hmem doc hlk queue' hq evs y2 stop hpe hsf ih
    subst hsf
    rw [parseSitemapLoop_cons_found g recursive since url_filter max_urls rest y
      hmem hlk hpe]
    rw [← hq]
    have hevs : fetchedUrls evs = [] := by
      have h := processEntries_no_fetch since url_filter max_urls doc.url_entries y
      rw [hpe] at h
      exact h
    simp only [Bool.false_eq_true, if_false, List.cons_append,
      fetchedUrls_cons_fetch, fetchedUrls_append, hevs, List.nil_append]
    obtain ⟨ihn, ihv⟩ := ih
    constructor
    · rw [List.nodup_cons]
      exact ⟨fun hc => (ihv current hc) (List.mem_cons_self _ _), ihn⟩
    · intro u hu
      rcases List.mem_cons.mp hu with h | h
      · exact h ▸ hmem
      · exact fun hv => (ihv u h) (List.mem_cons_of_mem _ hv)

theorem processEntries_some_zero (since : Option Int)
    (url_filter : Option (String → Bool)) :
    ∀ (l : List SitemapEntry) (y : Nat),
      processEntries since url_filter (some 0) l y =
        ((l.filter (eligibleEntry since url_filter)).map TraceEv.emit,
         y + (l.filter (eligibleEntry since url_filter)).length, false) := by
  intro l
  induction l with
  | nil => intro y; simp [processEntries]
  | cons e rest ih =>
    intro y
    simp only [processEntries, List.filter_cons, eligibleEntry]
    by_cases h1 : droppedBySince since e.lastmod = true
    · simp [h1, ih y, eligibleEntry]
    · simp only [Bool.not_eq_true] at h1
      by_cases h2 : droppedByFilter url_filter e.loc = true
      · simp [h1, h2, ih y, eligibleEntry]
      · simp only [Bool.not_eq_true] at h2
        have hlim : hitLimit (some 0) (y + 1) = false := rfl
        simp only [h1, h2, Bool.false_eq_true, if_false, hlim, ih (y + 1),
          Bool.not_false, Bool.and_self, if_true, eligibleEntry, List.map_cons,
          List.length_cons, Prod.mk.injEq]
        refine ⟨by trivial, by omega, by trivial⟩

theorem parseSitemapLoop_some_zero (g : SitemapWorld) (recursive : Bool)
    (since : Option Int) (url_filter : Option (String → Bool)) :
    ∀ (visited queue : List String) (y : Nat), ∀ y' : Nat,
      parseSitemapLoop g recursive since url_filter (some 0) visited queue y =
      parseSitemapLoop g recursive since url_filter none visited queue y' := by
  refine loopInduction g recursive since url_filter (some 0)
    (fun visited queue y => ∀ y' : Nat,
      parseSitemapLoop g recursive since url_filter (some 0) visited queue y =
      parseSitemapLoop g recursive since url_filter none visited queue y')
    ?_ ?_ ?_ ?_ ?_
  · intro visited y y'
    rw [parseSitemapLoop_nil, parseSitemapLoop_nil]
  · intro visited y current rest hmem ih y'
    rw [parseSitemapLoop_cons_mem g recursive since url_filter (some 0) rest y hmem,
        parseSitemapLoop_cons_mem g recursive since url_filter none rest y' hmem]
    exact ih y'
  · intro visited y current rest hmem hlk ih y'
    rw [parseSitemapLoop_cons_fail g recursive since url_filter (some 0) rest y hmem hlk,
        parseSitemapLoop_cons_fail g recursive since url_filter none rest y' hmem hlk]
    rw [ih y']
  · intro visited y current rest hmem doc hlk evs y2 hpe
    rw [processEntries_some_zero] at hpe
    have hfalse := congrArg (fun p => p.2.2) hpe
    simp at hfalse
  · intro visited y current rest hmem doc hlk queue' hq evs y2 stop hpe hsf ih y'
    subst hsf
    rcases hpe' : processEntries since url_filter none doc.url_entries y'
      with ⟨evs', y2', stop'⟩
    have h0 := processEntries_some_zero since url_filter doc.url_entries y
    have h1 := processEntries_none_eq since url_filter doc.url_entries y'
    rw [hpe] at h0
    rw [hpe'] at h1
    have hevs : evs = evs' := by
      have e0 := congrArg Prod.fst h0
      have e1 := congrArg Prod.fst h1
      simp only at e0 e1
      rw [e0, e1]
    have hstop' : stop' = false := by
      have s1 := congrArg (fun p => p.2.2) h1
      simp only at s1
      rw [s1]
    subst hstop'
    rw [parseSitemapLoop_cons_found g recursive since url_filter (some 0) rest y
          hmem hlk hpe,
        parseSitemapLoop_cons_found g recursive since url_filter none rest y'
          hmem hlk hpe']
    simp only [Bool.false_eq_true, if_false, ← hq]
    rw [hevs, ih y2']

/-- C9: because `max_urls` is tested for Python truthiness
(`if max_urls and urls_yielded >= max_urls`), `max_urls = 0` behaves
exactly like `max_urls = None`: the traversal trace is identical and
`get_product_urls` returns every eligible entry rather than zero
entries. -/
theorem c9_max_urls_zero_means_no_limit (g : SitemapWorld) (url : String)
    (recursive : Bool) (since : Option Int)
    (url_filter : Option (String → Bool)) :
    parse_sitemap g url recursive since url_filter (some 0) =
      parse_sitemap g url recursive since url_filter none ∧
    get_product_urls g url (some 0) since = get_product_urls g url none since := by
  constructor
  · exact parseSitemapLoop_some_zero g recursive since url_filter [] [url] 0 0
  · unfold get_product_urls parse_sitemap
    rw [parseSitemapLoop_some_zero g true since (some product_url_filter) [] [url] 0 0]

theorem filter_eligible_since (T : Int) (url_filter : Option (String → Bool))
    (l : List SitemapEntry) :
    l.filter (eligibleEntry (some T) url_filter) =
      (l.filter (eligibleEntry none url_filter)).filter
        (fun e => !droppedBySince (some T) e.lastmod) := by
  rw [List.filter_filter]
  apply List.filter_congr
  intro e _
  simp only [eligibleEntry, droppedBySince]
  cases hf : droppedByFilter url_filter e.loc
  <;> cases hl : e.lastmod
  <;> simp [droppedBySince]

theorem parseSitemapLoop_since_filter (g : SitemapWorld) (recursive : Bool)
    (url_filter : Option (String → Bool)) (T : Int) :
    ∀ (visited queue : List String) (y : Nat), ∀ y' : Nat,
      emittedEntries
        (parseSitemapLoop g recursive (some T) url_filter none visited queue y) =
      (emittedEntries
        (parseSitemapLoop g recursive none url_filter none visited queue y')).filter
        (fun e => !droppedBySince (some T) e.lastmod) := by
  refine loopInduction g recursive (some T) url_filter none
    (fun visited queue y => ∀ y' : Nat,
      emittedEntries
        (parseSitemapLoop g recursive (some T) url_filter none visited queue y) =
      (emittedEntries
        (parseSitemapLoop g recursive none url_filter none visited queue y')).filter
        (fun e => !droppedBySince (some T) e.lastmod))
    ?_ ?_ ?_ ?_ ?_
  · intro visited y y'
    rw [parseSitemapLoop_nil, parseSitemapLoop_nil]
    rfl
  · intro visited y current rest hmem ih y'
    rw [parseSitemapLoop_cons_mem g recursive (some T) url_filter none rest y hmem,
        parseSitemapLoop_cons_mem g recursive none url_filter none rest y' hmem]
    exact ih y'
  · intro visited y current rest hmem hlk ih y'
    rw [parseSitemapLoop_cons_fail g recursive (some T) url_filter none rest y hmem hlk,
        parseSitemapLoop_cons_fail g recursive none url_filter none rest y' hmem hlk,
        emittedEntries_cons_fetch, emittedEntries_cons_fetch]
    exact ih y'
  · intro visited y current rest hmem doc hlk evs y2 hpe
    rw [processEntries_none_eq] at hpe
    have hfalse := congrArg (fun p => p.2.2) hpe
    simp at hfalse
  · intro visited y current rest hmem doc hlk queue' hq evs y2 stop hpe hsf ih y'
    subst hsf
    rcases hpe' : processEntries none url_filter none doc.url_entries y'
      with ⟨evs', y2', stop'⟩
    have h0 := processEntries_none_eq (some T) url_filter doc.url_entries y
    have h1 := processEntries_none_eq none url_filter doc.url_entries y'
    rw [hpe] at h0
    rw [hpe'] at h1
    have hevs : evs = (doc.url_entries.filter (eligibleEntry (some T) url_filter)).map
        TraceEv.emit := congrArg Prod.fst h0
    have hevs' : evs' = (doc.url_entries.filter (eligibleEntry none url_filter)).map
        TraceEv.emit := congrArg Prod.fst h1
    have hstop' : stop' = false := congrArg (fun p => p.2.2) h1
    subst hstop'
    rw [parseSitemapLoop_cons_found g recursive (some T) url_filter none rest y
          hmem hlk hpe,
        parseSitemapLoop_cons_found g recursive none url_filter none rest y'
          hmem hlk hpe']
    simp only [Bool.false_eq_true, if_false, ← hq, List.cons_append,
      emittedEntries_cons_fetch, emittedEntries_append]
    rw [hevs, hevs', emittedEntries_map_emit, emittedEntries_map_emit,
      List.filter_append, filter_eligible_since, ih y2']

/-- C7: with `since = T`, the traversal yields exactly the entries the
unfiltered traversal yields minus those with `lastmod < T`: an entry with
`lastmod = some m` is dropped iff `m < T`, and an entry with no `lastmod`
is never filtered out by `since`. -/
theorem c7_since_filter (g : SitemapWorld) (url : String) (recursive : Bool)
    (url_filter : Option (String → Bool)) (T : Int) :
    emittedEntries (parse_sitemap g url recursive (some T) url_filter none) =
      (emittedEntries (parse_sitemap g url recursive none url_filter none)).filter
        (fun e => !droppedBySince (some T) e.lastmod) ∧
    (∀ e ∈ emittedEntries (parse_sitemap g url recursive (some T) url_filter none),
      ∀ m : Int, e.lastmod = some m → ¬ m < T) ∧
    (∀ e : SitemapEntry, e.lastmod = none →
      droppedBySince (some T) e.lastmod = false) ∧
    (∀ m : Int, droppedBySince (some T) (some m) = decide (m < T)) := by
  have hmain := parseSitemapLoop_since_filter g recursive url_filter T [] [url] 0 0
  refine ⟨hmain, ?_, ?_, ?_⟩
  · intro e he m hm
    rw [parse_sitemap] at he
    rw [hmain] at he
    have hp := List.of_mem_filter he
    rw [hm] at hp
    simp only [droppedBySince, Bool.not_eq_true', decide_eq_false_iff_not] at hp
    exact hp
  · intro e he
    rw [he]
    rfl
  · intro m
    rfl

/-- C7 witness: a sitemap with three entries — `lastmod = 3` (older than
`T = 5`), `lastmod = 7` (newer), and no `lastmod` — traversed with
`since = 5` yields exactly the newer entry and the undated entry. -/
theorem c7_witness :
    emittedEntries (parse_sitemap
      [("https://x/s.xml",
        ⟨[], [{ loc := "a", lastmod := some 3 }, { loc := "b", lastmod := some 7 },
              { loc := "c" }]⟩)]
      "https://x/s.xml" true (some 5) none none) =
      [{ loc := "b", lastmod := some 7 }, { loc := "c" }] := by
  rw [(c7_since_filter
    [("https://x/s.xml",
      ⟨[], [{ loc := "a", lastmod := some 3 }, { loc := "b", lastmod := some 7 },
            { loc := "c" }]⟩)]
    "https://x/s.xml" true none 5).1]
  simp [parse_sitemap, parseSitemapLoop, List.lookup, processEntries,
    droppedBySince, droppedByFilter, hitLimit, emittedEntries, fetchedUrls]

theorem parseSitemapLoop_limited_length (g : SitemapWorld) (recursive : Bool)
    (since : Option Int) (url_filter : Option (String → Bool)) (k : Nat) :
    ∀ (visited queue : List String) (y : Nat), y < k → ∀ y' : Nat,
      (emittedEntries (parseSitemapLoop g recursive since url_filter (some k)
        visited queue y)).length =
      min (k - y)
        (emittedEntries (parseSitemapLoop g recursive since url_filter none
          visited queue y')).length := by
  refine loopInduction g recursive since url_filter (some k)
    (fun visited queue y => y < k → ∀ y' : Nat,
      (emittedEntries (parseSitemapLoop g recursive since url_filter (some k)
        visited queue y)).length =
      min (k - y)
        (emittedEntries (parseSitemapLoop g recursive since url_filter none
          visited queue y')).length)
    ?_ ?_ ?_ ?_ ?_
  · intro visited y hy y'
    rw [parseSitemapLoop_nil, parseSitemapLoop_nil]
    simp [emittedEntries]
  · intro visited y current rest hmem ih hy y'
    rw [parseSitemapLoop_cons_mem g recursive since url_filter (some k) rest y hmem,
        parseSitemapLoop_cons_mem g recursive since url_filter none rest y' hmem]
    exact ih hy y'
  · intro visited y current rest hmem hlk ih hy y'
    rw [parseSitemapLoop_cons_fail g recursive since url_filter (some k) rest y hmem hlk,
        parseSitemapLoop_cons_fail g recursive since url_filter none rest y' hmem hlk,
        emittedEntries_cons_fetch, emittedEntries_cons_fetch]
    exact ih hy y'
  · intro visited y current rest hmem doc hlk evs y2 hpe hy y'
    have h0 := processEntries_some_eq since url_filter k doc.url_entries y hy
    rw [hpe] at h0
    have hevs : evs = ((doc.url_entries.filter (eligibleEntry since url_filter)).take
        (k - y)).map TraceEv.emit := congrArg Prod.fst h0
    have hstop : true = decide
        ((doc.url_entries.filter (eligibleEntry since url_filter)).length ≥ k - y) :=
      congrArg (fun p => p.2.2) h0
    have hge : (doc.url_entries.filter (eligibleEntry since url_filter)).length ≥
        k - y := of_decide_eq_true hstop.symm
    rcases hpe' : processEntries since url_filter none doc.url_entries y'
      with ⟨evs', y2', stop'⟩
    have h1 := processEntries_none_eq since url_filter doc.url_entries y'
    rw [hpe'] at h1
    have hevs' : evs' = (doc.url_entries.filter (eligibleEntry since url_filter)).map
        TraceEv.emit := congrArg Prod.fst h1
    have hstop' : stop' = false := congrArg (fun p => p.2.2) h1
    subst hstop'
    rw [parseSitemapLoop_cons_found g recursive since url_filter (some k) rest y
          hmem hlk hpe,
        parseSitemapLoop_cons_found g recursive since url_filter none rest y'
          hmem hlk hpe']
    simp only [if_true, Bool.false_eq_true, if_false, List.cons_append,
      emittedEntries_cons_fetch, emittedEntries_append]
    rw [hevs, hevs', emittedEntries_map_emit, emittedEntries_map_emit,
      List.length_take, List.length_append]
    omega
  · intro visited y current rest hmem doc hlk queue' hq evs y2 stop hpe hsf ih hy y'
    subst hsf
    have h0 := processEntries_some_eq since url_filter k doc.url_entries y hy
    rw [hpe] at h0
    have hevs : evs = ((doc.url_entries.filter (eligibleEntry since url_filter)).take
        (k - y)).map TraceEv.emit := congrArg Prod.fst h0
    have hy2 : y2 = y + min (k - y)
        (doc.url_entries.filter (eligibleEntry since url_filter)).length :=
      congrArg (fun p => p.2.1) h0
    have hstop0 : false = decide
        ((doc.url_entries.filter (eligibleEntry since url_filter)).length ≥ k - y) :=
      congrArg (fun p => p.2.2) h0
    have hlt : (doc.url_entries.filter (eligibleEntry since url_filter)).length <
        k - y := by
      by_contra hc
      have := decide_eq_true (show (doc.url_entries.filter
        (eligibleEntry since url_filter)).length ≥ k - y by omega)
      rw [← hstop0] at this
      cases this
    rcases hpe' : processEntries since url_filter none doc.url_entries y'
      with ⟨evs', y2', stop'⟩
    have h1 := processEntries_none_eq since url_filter doc.url_entries y'
    rw [hpe'] at h1
    have hevs' : evs' = (doc.url_entries.filter (eligibleEntry since url_filter)).map
        TraceEv.emit := congrArg Prod.fst h1
    have hstop' : stop' = false := congrArg (fun p => p.2.2) h1
    subst hstop'
    rw [parseSitemapLoop_cons_found g recursive since url_filter (some k) rest y
          hmem hlk hpe,
        parseSitemapLoop_cons_found g recursive since url_filter none rest y'
          hmem hlk hpe']
    have hy2k : y2 < k := by omega
    have hih := ih hy2k y2'
    simp only [Bool.false_eq_true, if_false, ← hq, List.cons_append,
      emittedEntries_cons_fetch, emittedEntries_append, List.length_append]
    rw [hevs, hevs', emittedEntries_map_emit, emittedEntries_map_emit,
      List.length_take, hih]
    omega

theorem parseSitemapLoop_limited_last (g : SitemapWorld) (recursive : Bool)
    (since : Option Int) (url_filter : Option (String → Bool)) (k : Nat) :
    ∀ (visited queue : List String) (y : Nat), y < k →
      (emittedEntries (parseSitemapLoop g recursive since url_filter (some k)
        visited queue y)).length = k - y →
      ∃ e, (parseSitemapLoop g recursive since url_filter (some k)
        visited queue y).getLast? = some (TraceEv.emit e) := by
  refine loopInduction g recursive since url_filter (some k)
    (fun visited queue y => y < k →
      (emittedEntries (parseSitemapLoop g recursive since url_filter (some k)
        visited queue y)).length = k - y →
      ∃ e, (parseSitemapLoop g recursive since url_filter (some k)
        visited queue y).getLast? = some (TraceEv.emit e))
    ?_ ?_ ?_ ?_ ?_
  · intro visited y hy hlen
    rw [parseSitemapLoop_nil] at hlen
    simp only [emittedEntries, List.filterMap_nil, List.length_nil] at hlen
    omega
  · intro visited y current rest hmem ih hy hlen
    rw [parseSitemapLoop_cons_mem g recursive since url_filter (some k) rest y hmem]
      at hlen ⊢
    exact ih hy hlen
  · intro visited y current rest hmem hlk ih hy hlen
    rw [parseSitemapLoop_cons_fail g recursive since url_filter (some k) rest y
      hmem hlk] at hlen ⊢
    rw [emittedEntries_cons_fetch] at hlen
    obtain ⟨e, he⟩ := ih hy hlen
    refine ⟨e, ?_⟩
    rw [show TraceEv.fetch current ::
          parseSitemapLoop g recursive since url_filter (some k)
            (current :: visited) rest y =
        [TraceEv.fetch current] ++
          parseSitemapLoop g recursive since url_filter (some k)
            (current :: visited) rest y from rfl,
      List.getLast?_append, he]
    rfl
  · intro visited y current rest hmem doc hlk evs y2 hpe hy hlen
    have h0 := processEntries_some_eq since url_filter k doc.url_entries y hy
    rw [hpe] at h0
    have hevs : evs = ((doc.url_entries.filter (eligibleEntry since url_filter)).take
        (k - y)).map TraceEv.emit := congrArg Prod.fst h0
    have hstop : true = decide
        ((doc.url_entries.filter (eligibleEntry since url_filter)).length ≥ k - y) :=
      congrArg (fun p => p.2.2) h0
    have hge : (doc.url_entries.filter (eligibleEntry since url_filter)).length ≥
        k - y := of_decide_eq_true hstop.symm
    rw [parseSitemapLoop_cons_found g recursive since url_filter (some k) rest y
      hmem hlk hpe]
    simp only [if_true]
    have hne : ((doc.url_entries.filter (eligibleEntry since url_filter)).take
        (k - y)) ≠ [] := by
      intro hc
      have h5 := congrArg List.length hc
      rw [List.length_take] at h5
      simp only [List.length_nil] at h5
      omega
    obtain ⟨x, hx⟩ : ∃ x, ((doc.url_entries.filter
        (eligibleEntry since url_filter)).take (k - y)).getLast? = some x := by
      cases hgl : ((doc.url_entries.filter
          (eligibleEntry since url_filter)).take (k - y)).getLast? with
      | none => exact absurd (List.getLast?_eq_none_iff.mp hgl) hne
      | some x => exact ⟨x, rfl⟩
    refine ⟨x, ?_⟩
    rw [show TraceEv.fetch current :: evs = [TraceEv.fetch current] ++ evs from rfl,
      List.getLast?_append, hevs, List.getLast?_map, hx]
    rfl
  · intro visited y current rest hmem doc hlk queue' hq evs y2 stop hpe hsf ih hy hlen
    subst hsf
    have h0 := processEntries_some_eq since url_filter k doc.url_entries y hy
    rw [hpe] at h0
    have hevs : evs = ((doc.url_entries.filter (eligibleEntry since url_filter)).take
        (k - y)).map TraceEv.emit := congrArg Prod.fst h0
    have hy2 : y2 = y + min (k - y)
        (doc.url_entries.filter (eligibleEntry since url_filter)).length :=
      congrArg (fun p => p.2.1) h0
    have hstop0 : false = decide
        ((doc.url_entries.filter (eligibleEntry since url_filter)).length ≥ k - y) :=
      congrArg (fun p => p.2.2) h0
    have hlt : (doc.url_entries.filter (eligibleEntry since url_filter)).length <
        k - y := by
      by_contra hc
      have := decide_eq_true (show (doc.url_entries.filter
        (eligibleEntry since url_filter)).length ≥ k - y by omega)
      rw [← hstop0] at this
      cases this
    rw [parseSitemapLoop_cons_found g recursive since url_filter (some k) rest y
      hmem hlk hpe] at hlen ⊢
    simp only [Bool.false_eq_true, if_false, ← hq, List.cons_append,
      emittedEntries_cons_fetch, emittedEntries_append, List.length_append]
      at hlen
    rw [hevs, emittedEntries_map_emit, List.length_take] at hlen
    have hy2k : y2 < k := by omega
    have hlen2 : (emittedEntries (parseSitemapLoop g recursive since url_filter
        (some k) (current :: visited) queue' y2)).length = k - y2 := by omega
    obtain ⟨e, he⟩ := ih hy2k hlen2
    refine ⟨e, ?_⟩
    simp only [Bool.false_eq_true, if_false, ← hq]
    rw [show (TraceEv.fetch current :: evs) ++
          parseSitemapLoop g recursive since url_filter (some k)
            (current :: visited) queue' y2 =
        (TraceEv.fetch current :: evs) ++
          parseSitemapLoop g recursive since url_filter (some k)
            (current :: visited) queue' y2 from rfl,
      List.getLast?_append, he]
    rfl

/-- C4: with `max_urls = k > 0` and a source whose unbounded traversal
yields more than `k` eligible entries, `get_product_urls` returns exactly
`k` entries, and the bounded traversal performs no fetch after the `k`-th
entry is emitted: for any split of the trace whose first part already
contains the `k` emits, the remainder contains no fetch event (the queued
sitemap URLs are abandoned: in fact the `k`-th emit is the final event of
the trace). -/
theorem c4_max_urls_early_stop (g : SitemapWorld) (url : String)
    (since : Option Int) (k : Nat) (hk : 0 < k)
    (hmore : k < (get_product_urls g url none since).length) :
    (get_product_urls g url (some k) since).length = k ∧
    (∀ tr₁ tr₂ : List TraceEv,
      parse_sitemap g url true since (some product_url_filter) (some k) =
        tr₁ ++ tr₂ →
      (emittedEntries tr₁).length = k →
      fetchedUrls tr₂ = []) := by
  have hinf : k < (emittedEntries (parseSitemapLoop g true since
      (some product_url_filter) none [] [url] 0)).length := hmore
  have hlen : (get_product_urls g url (some k) since).length = k := by
    show (emittedEntries (parseSitemapLoop g true since
      (some product_url_filter) (some k) [] [url] 0)).length = k
    rw [parseSitemapLoop_limited_length g true since (some product_url_filter) k
      [] [url] 0 (by omega) 0]
    omega
  refine ⟨hlen, ?_⟩
  intro tr₁ tr₂ hsplit hk1
  have htr : (emittedEntries (parse_sitemap g url true since
      (some product_url_filter) (some k))).length = k := hlen
  obtain ⟨e, hlaste⟩ := parseSitemapLoop_limited_last g true since
    (some product_url_filter) k [] [url] 0 (by omega)
    (by rw [Nat.sub_zero]; exact htr)
  have hlaste' : (parse_sitemap g url true since
      (some product_url_filter) (some k)).getLast? = some (TraceEv.emit e) := hlaste
  have happ := congrArg emittedEntries hsplit
  rw [emittedEntries_append] at happ
  have hlen2 : (emittedEntries tr₂).length = 0 := by
    have h6 := congrArg List.length happ
    rw [List.length_append] at h6
    rw [htr] at h6
    omega
  have htr2nil : tr₂ = [] := by
    by_contra hne
    have hgl : (tr₁ ++ tr₂).getLast? = tr₂.getLast? := by
      rw [List.getLast?_append]
      cases hgl2 : tr₂.getLast? with
      | none => exact absurd (List.getLast?_eq_none_iff.mp hgl2) hne
      | some b => rfl
    rw [← hsplit, hlaste'] at hgl
    obtain ⟨ys, hys⟩ := List.getLast?_eq_some_iff.mp hgl.symm
    have hmem : e ∈ emittedEntries tr₂ := by
      rw [hys, emittedEntries_append]
      simp [emittedEntries]
    rw [List.length_eq_zero.mp hlen2] at hmem
    cases hmem
  rw [htr2nil]
  rfl

/-- C4 witness: a single sitemap holding three product URLs, traversed with
`max_urls = 2`, returns exactly 2 entries. -/
theorem c4_witness :
    (get_product_urls
      [("https://x/s.xml", ⟨[],
        [{ loc := "/en/ip/a/1" }, { loc := "/en/ip/b/2" },
         { loc := "/en/ip/c/3" }]⟩)]
      "https://x/s.xml" (some 2) none).length = 2 :=
  (c4_max_urls_early_stop
    [("https://x/s.xml", ⟨[],
      [{ loc := "/en/ip/a/1" }, { loc := "/en/ip/b/2" },
       { loc := "/en/ip/c/3" }]⟩)]
    "https://x/s.xml" none 2 (by omega)
    (by
      have h1 : product_url_filter "/en/ip/a/1" = true := by decide
      have h2 : product_url_filter "/en/ip/b/2" = true := by decide
      have h3 : product_url_filter "/en/ip/c/3" = true := by decide
      simp [get_product_urls, parse_sitemap, parseSitemapLoop, List.lookup,
        processEntries, droppedBySince, droppedByFilter, hitLimit,
        emittedEntries, h1, h2, h3])).1

/-- C3: traversal (which terminates by construction: `parseSitemapLoop` is
a total function, defined by well-founded recursion on the unvisited
fetchable URLs) never fetches the same sitemap URL twice within one call —
the fetched-URL list of any traversal trace has no duplicates — and on the
concrete two-element cycle (A references B, B references A) the traversal
fetches exactly A then B and stops. -/
theorem c3_traversal_fetches_each_url_at_most_once :
    (∀ (g : SitemapWorld) (url : String) (recursive : Bool)
       (since : Option Int) (url_filter : Option (String → Bool))
       (max_urls : Option Nat),
      (fetchedUrls (parse_sitemap g url recursive since url_filter max_urls)).Nodup) ∧
    parse_sitemap
      [("https://x/sitemapA.xml", ⟨["https://x/sitemapB.xml"], []⟩),
       ("https://x/sitemapB.xml", ⟨["https://x/sitemapA.xml"], []⟩)]
      "https://x/sitemapA.xml" true none none none =
      [TraceEv.fetch "https://x/sitemapA.xml",
       TraceEv.fetch "https://x/sitemapB.xml"] := by
  constructor
  · intro g url recursive since url_filter max_urls
    exact (parseSitemapLoop_fetched_nodup g recursive since url_filter max_urls
      [] [url] 0).1
  · simp [parse_sitemap, parseSitemapLoop, List.lookup, processEntries]

/-! ## Claim theorems -/

/-- C1: `CaptchaSolverManager.solve_perimeterx` satisfies its contract: an
unavailable manager returns an immediate failure with no provider calls;
providers are tried in order (primary, then a configured distinct
fallback), each for up to `max_retries` attempts, and the first successful
solution is returned — in particular, a primary failing every retry and a
fallback succeeding on its first attempt yields the fallback's solution
after exactly `max_retries` calls to the primary; and when every
provider/attempt fails the result is a failure solution whose error
references the last observed error. -/
theorem c1_solve_perimeterx_contract
    (m : CaptchaSolverManager) (pb fb : SolverBehavior) (fbName : String)
    (s : CaptchaSolution)
    (hav : is_available m = true)
    (hfb : m.fallback_provider = some fbName)
    (hne0 : fbName ≠ "")
    (hne : fbName ≠ m.primary_provider)
    (hpb : m.solvers.lookup m.primary_provider = some pb)
    (hfbl : m.solvers.lookup fbName = some fb)
    (hpfail : ∀ i, AttemptFailed (pb i))
    (hfb0 : fb 0 = SolveAttemptResult.returns s)
    (hs : s.success = true)
    (hk : 0 < m.max_retries) :
    (solve_perimeterx m).1 = s ∧
    (solve_perimeterx m).2 =
      (List.range m.max_retries).map (fun i => (m.primary_provider, i)) ++
        [(fbName, 0)] ∧
    (∀ m₂ : CaptchaSolverManager, is_available m₂ = false →
      solve_perimeterx m₂ =
        ({ success := false,
           error := some "CAPTCHA solving is not configured or enabled" }, [])) ∧
    (∀ (m₂ : CaptchaSolverManager) (pb₂ fb₂ : SolverBehavior) (fbName₂ : String)
        (ep ef : Nat → String),
      is_available m₂ = true →
      m₂.fallback_provider = some fbName₂ →
      fbName₂ ≠ "" →
      fbName₂ ≠ m₂.primary_provider →
      m₂.solvers.lookup m₂.primary_provider = some pb₂ →
      m₂.solvers.lookup fbName₂ = some fb₂ →
      (∀ i, pb₂ i =
        SolveAttemptResult.returns { success := false, error := some (ep i) }) →
      (∀ i, fb₂ i =
        SolveAttemptResult.returns { success := false, error := some (ef i) }) →
      0 < m₂.max_retries →
      (solve_perimeterx m₂).1 =
        { success := false,
          error := some ("All CAPTCHA solvers failed. Last error: " ++
            ef (m₂.max_retries - 1)) }) := by
  have hmain :
      (solve_perimeterx m).1 = s ∧
      (solve_perimeterx m).2 =
        (List.range m.max_retries).map (fun i => (m.primary_provider, i)) ++
          [(fbName, 0)] := by
    unfold solve_perimeterx
    rw [hav]
    rw [providers_to_try_both m fbName hfb hne0 hne]
    simp only [Bool.not_true, Bool.false_eq_true, if_false]
    rcases hA : attemptLoop m.primary_provider pb 0 m.max_retries none
      with ⟨r1, e1, calls1⟩
    have h1 := attemptLoop_all_fail m.primary_provider pb hpfail m.max_retries 0 none
    rw [hA] at h1
    simp only at h1
    obtain ⟨hr1, hcalls1⟩ := h1
    subst hr1
    have hB := attemptLoop_success_first fbName fb s hfb0 hs m.max_retries hk e1
    simp only [providerLoop, hpb, hfbl, hA, hB]
    rw [hcalls1, List.range_eq_range']
    exact ⟨trivial, rfl⟩
  refine ⟨hmain.1, hmain.2, ?_, ?_⟩
  · intro m₂ hm₂
    unfold solve_perimeterx
    rw [hm₂]
    simp
  · intro m₂ pb₂ fb₂ fbName₂ ep ef hav₂ hfb₂ hne0₂ hne₂ hpb₂ hfbl₂ hbp hbf hk₂
    obtain ⟨n, hn⟩ : ∃ n, m₂.max_retries = n + 1 := ⟨m₂.max_retries - 1, by omega⟩
    unfold solve_perimeterx
    rw [hav₂]
    rw [providers_to_try_both m₂ fbName₂ hfb₂ hne0₂ hne₂]
    simp only [Bool.not_true, Bool.false_eq_true, if_false]
    have hP := attemptLoop_concrete_fail m₂.primary_provider pb₂ ep hbp n 0 none
    have hF := attemptLoop_concrete_fail fbName₂ fb₂ ef hbf n 0 (some (ep (0 + n)))
    simp only [providerLoop, hpb₂, hfbl₂, hn, hP, hF]
    simp [pyStrOfOption, hn]

/-- C1 witness: a two-provider manager whose primary fails both retries and
whose fallback succeeds immediately returns the fallback's solution. -/
theorem c1_witness :
    (solve_perimeterx
      { enabled := true, primary_provider := "capsolver",
        fallback_provider := some "2captcha", max_retries := 2,
        solvers :=
          [("capsolver", fun _ => SolveAttemptResult.returns
              { success := false, error := some "ERROR_CAPTCHA_UNSOLVABLE" }),
           ("2captcha", fun _ => SolveAttemptResult.returns
              { success := true, token := some "tok" })] }).1 =
      { success := true, token := some "tok" } :=
  (c1_solve_perimeterx_contract
    { enabled := true, primary_provider := "capsolver",
      fallback_provider := some "2captcha", max_retries := 2,
      solvers :=
        [("capsolver", fun _ => SolveAttemptResult.returns
            { success := false, error := some "ERROR_CAPTCHA_UNSOLVABLE" }),
         ("2captcha", fun _ => SolveAttemptResult.returns
            { success := true, token := some "tok" })] }
    (fun _ => SolveAttemptResult.returns
      { success := false, error := some "ERROR_CAPTCHA_UNSOLVABLE" })
    (fun _ => SolveAttemptResult.returns
      { success := true, token := some "tok" })
    "2captcha" { success := true, token := some "tok" }
    rfl rfl (by decide) (by decide) rfl rfl (fun _ => rfl) rfl rfl
    (by decide)).1

/-- C10: with the manager available but neither the primary nor the
fallback name matching an initialized solver, `solve_perimeterx` makes zero
provider calls and returns a failure whose error string is exactly
`All CAPTCHA solvers failed. Last error: None` (it is a total function, so
it never raises). -/
theorem c10_solve_perimeterx_no_matching_solver
    (m : CaptchaSolverManager)
    (hav : is_available m = true)
    (hp : m.solvers.lookup m.primary_provider = none)
    (hf : ∀ fbName, m.fallback_provider = some fbName →
      m.solvers.lookup fbName = none) :
    (solve_perimeterx m).2 = [] ∧
    (solve_perimeterx m).1.success = false ∧
    (solve_perimeterx m).1.error =
      some "All CAPTCHA solvers failed. Last error: None" := by
  have htail :
      providerLoop m.solvers m.max_retries (providers_to_try m) none =
        (none, none, []) := by
    cases hfb : m.fallback_provider with
    | none => simp [providers_to_try, hfb, providerLoop, hp]
    | some fbName =>
      by_cases hc :
          (decide (fbName ≠ "") && decide (fbName ≠ m.primary_provider)) = true
      · simp only [providers_to_try, hfb]
        rw [if_pos hc]
        simp [providerLoop, hp, hf fbName hfb]
      · simp only [providers_to_try, hfb]
        rw [if_neg hc]
        simp [providerLoop, hp]
  unfold solve_perimeterx
  rw [hav]
  simp only [Bool.not_true, Bool.false_eq_true, if_false, htail]
  exact ⟨by trivial, by trivial, by trivial⟩

/-- C10 witness: a manager enabled with one initialized solver whose name
matches neither the configured primary nor the configured fallback. -/
theorem c10_witness :
    (solve_perimeterx
      { enabled := true, primary_provider := "2captcha",
        fallback_provider := some "capsolver", max_retries := 2,
        solvers := [("anticaptcha", fun _ =>
          SolveAttemptResult.throws "never called")] }).1.error =
      some "All CAPTCHA solvers failed. Last error: None" :=
  (c10_solve_perimeterx_no_matching_solver
    { enabled := true, primary_provider := "2captcha",
      fallback_provider := some "capsolver", max_retries := 2,
      solvers := [("anticaptcha", fun _ =>
        SolveAttemptResult.throws "never called")] }
    rfl rfl (fun fbName h => by injection h with h2; subst h2; rfl)).2.2

/-- C5 counterexample: the claim "for every provider whose balance query
fails, the mapping contains a sentinel negative amount" is false for the
concrete providers, whose `get_balance` catches its own query failure and
returns `0.0`: a manager holding one `2captcha` solver whose HTTP balance
query fails maps that provider to `0`, which is not negative. -/
theorem c5_counterexample :
    get_balances [("2captcha", Except.ok (TwoCaptchaSolver.get_balance none))] =
      [("2captcha", (0 : Rat))] ∧ ¬ ((0 : Rat) < 0) :=
  ⟨rfl, by norm_num⟩

/-- C5 (amended): `get_balances` maps every initialized provider to an
amount, in order; a provider whose `get_balance` call raises is mapped to
the sentinel `-1.0`, and the failure does not abort the call — providers
before and after it are still queried and mapped; but the concrete
providers (`TwoCaptchaSolver.get_balance`, `CapSolver.get_balance`) catch
their own query failures and return `0.0`, so a failed balance query at a
concrete provider yields `0`, not a negative amount. -/
theorem c5_get_balances_amended :
    (∀ solvers : List (String × Except String Rat),
      (get_balances solvers).map Prod.fst = solvers.map Prod.fst) ∧
    (∀ (pre post : List (String × Except String Rat)) (nm msg : String),
      get_balances (pre ++ (nm, Except.error msg) :: post) =
        get_balances pre ++ (nm, (-1 : Rat)) :: get_balances post) ∧
    TwoCaptchaSolver.get_balance none = 0 ∧
    CapSolver.get_balance none = 0 := by
  refine ⟨?_, ?_, rfl, rfl⟩
  · intro solvers
    simp [get_balances]
  · intro pre post nm msg
    simp [get_balances]

/-- C6: the crawl-state invariant on `consecutive_errors`: any visit that
produces a record leaves the counter at 0 (so a success after any number of
prior failures resets it); every visit either resets the counter to 0 or
increments it by exactly 1; and an increment happens only on a failed visit
or an unresolved block. -/
theorem c6_consecutive_errors_invariant {α : Type}
    (max_consecutive_errors : Nat) (outcome : LoadOutcome α) (st : CrawlState) :
    (∀ r : α,
      (scrape_product_page max_consecutive_errors outcome st).1 = some r →
      (scrape_product_page max_consecutive_errors outcome st).2.consecutive_errors = 0) ∧
    ((scrape_product_page max_consecutive_errors outcome st).2.consecutive_errors = 0 ∨
     (scrape_product_page max_consecutive_errors outcome st).2.consecutive_errors =
       st.consecutive_errors + 1) ∧
    ((scrape_product_page max_consecutive_errors outcome st).2.consecutive_errors =
       st.consecutive_errors + 1 → FailedVisit outcome) := by
  cases outcome with
  | timeout => simp [scrape_product_page, FailedVisit]
  | exn => simp [scrape_product_page, FailedVisit]
  | loaded blocked solver_available captcha_ok structured fallback_to_dom dom =>
    by_cases hb : (blocked && !handle_block solver_available captcha_ok) = true
    · simp only [scrape_product_page, hb, if_true, ite_self]
      refine ⟨fun r hr => by simp at hr, Or.inr (by trivial), fun _ => ?_⟩
      simp only [Bool.and_eq_true, Bool.not_eq_true'] at hb
      exact ⟨hb.1, hb.2⟩
    · simp only [scrape_product_page, hb, if_false, Bool.false_eq_true]
      cases structured with
      | some r => simp
      | none =>
        cases fallback_to_dom with
        | true => simp
        | false => simp

/-- C6 witness: a visit that extracts a record after three prior
consecutive failures leaves the error counter at 0. -/
theorem c6_witness :
    (scrape_product_page 5
      (LoadOutcome.loaded false false false (some 42) false none)
      { consecutive_errors := 3, errors := 7 }).2.consecutive_errors = 0 :=
  (c6_consecutive_errors_invariant 5
    (LoadOutcome.loaded false false false (some 42) false none)
    { consecutive_errors := 3, errors := 7 }).1 42 rfl

/-- C2: the first half of the claim holds — a visit of a blocked page with
an unavailable solver increments `consecutive_errors` by exactly 1 and
returns no record — but the second half does not: the code has no `Stopped`
state.  After `max_consecutive_errors = 5` such visits the counter equals
5, yet the next call still visits the page: a subsequent successful page
yields a record (and resets the counter), and a subsequent blocked page
pushes the counter to 6.  The `>= max_consecutive_errors` branch in
`scrape_product_page` only logs "stopping" before the same `return None`
the other branch executes. -/
theorem c2_no_stop_divergence :
    (∀ (st : CrawlState) (max_consecutive_errors : Nat),
      scrape_product_page (α := Nat) max_consecutive_errors
        (LoadOutcome.loaded true false false none false none) st =
        (none, { consecutive_errors := st.consecutive_errors + 1,
                 errors := st.errors + 1 })) ∧
    (runVisits 5
      (List.replicate 5 (LoadOutcome.loaded (α := Nat) true false false none false none))
      { consecutive_errors := 0, errors := 0 }).consecutive_errors = 5 ∧
    (scrape_product_page 5
      (LoadOutcome.loaded false false false (some 99) false none)
      (runVisits 5
        (List.replicate 5 (LoadOutcome.loaded (α := Nat) true false false none false none))
        { consecutive_errors := 0, errors := 0 })).1 = some 99 ∧
    (scrape_product_page 5
      (LoadOutcome.loaded (α := Nat) true false false none false none)
      (runVisits 5
        (List.replicate 5 (LoadOutcome.loaded (α := Nat) true false false none false none))
        { consecutive_errors := 0, errors := 0 })).2.consecutive_errors = 6 := by
  refine ⟨fun st me => ?_, rfl, rfl, rfl⟩
  simp [scrape_product_page, handle_block, ite_self]

/-- C8: `filter_walmart_product_urls` accepts exactly the URLs that contain
an item-page marker (`/ip/` or `/produit/`) and none of the disallowed
patterns, and behaves as specified on the three example URLs. -/
theorem c8_filter_walmart_product_urls_spec :
    (∀ url : String,
      filter_walmart_product_urls url = true ↔
        (("/ip/".data <:+: url.data) ∨ ("/produit/".data <:+: url.data)) ∧
          ∀ pat ∈ disallowed_patterns, ¬ (pat.data <:+: url.data)) ∧
    filter_walmart_product_urls "/en/ip/widget/12345" = true ∧
    filter_walmart_product_urls "/en/ip/widget/12345?f=color" = false ∧
    filter_walmart_product_urls "/search?q=widget" = false := by
  refine ⟨fun url => ?_, by decide, by decide, by decide⟩
  simp only [filter_walmart_product_urls, containsSub]
  by_cases hA : "/ip/".data <:+: url.data
  <;> by_cases hB : "/produit/".data <:+: url.data
  <;> by_cases hD : ∃ pat ∈ disallowed_patterns, pat.data <:+: url.data
  <;> simp [hA, hB, hD, List.any_eq_true]
  <;> first
    | (obtain ⟨pat, hp1, hp2⟩ := hD; exact fun h => h pat hp1 hp2)
    | (intro pat hp1 hp2; exact hD ⟨pat, hp1, hp2⟩)

end SmartSave
